import Mathlib

/-!
Verification of the freight-brokerage negotiation engine
(`load.py`, `carrier.py`, `freighttech.py`, `freight_model.py`).

Numbers are modelled exactly by `ℚ` (the Python code computes with machine
floats; every property below is about the ideal arithmetic the code writes
down).  `math.sqrt` is modelled by the computable rational square root
`Rat.sqrt`; every theorem below is independent of the interpretation of the
square-root function, and every concrete witness uses inputs on which
`Rat.sqrt` agrees with the real square root (perfect squares, mostly `0`).
Python's `round(x, 2)` (round-half-to-even at two decimal places) is modelled
exactly by `pyRound2`.
-/

set_option autoImplicit false

/-- Python `math.sqrt`, modelled by the rational square root. -/
def msqrt (x : ℚ) : ℚ := Rat.sqrt x

/-- Round-half-to-even to the nearest integer, as Python `round` does. -/
def roundHalfEven (x : ℚ) : ℤ :=
  if x - ⌊x⌋ < 1/2 then ⌊x⌋
  else if 1/2 < x - ⌊x⌋ then ⌊x⌋ + 1
  else if ⌊x⌋ % 2 = 0 then ⌊x⌋ else ⌊x⌋ + 1

/-- Python `round(x, 2)`: round half-to-even at two decimal places. -/
def pyRound2 (x : ℚ) : ℚ := (roundHalfEven (x * 100) : ℚ) / 100

/-- The `Load` dataclass of `load.py`.  Coordinates, money and times are `ℚ`;
the default field values are those of the dataclass. -/
structure Load where
  id : String
  origin : ℚ × ℚ
  destination : ℚ × ℚ
  market_rate : ℚ
  lead_time : ℚ
  initial_lead_time : ℚ
  penalty_rate : ℚ := 0.20
  assigned_carrier_id : Option String := none
  current_bid : Option ℚ := none
  current_bidder_id : Option String := none
  negotiation_rounds : ℕ := 0
  is_covered : Bool := false
  is_expired : Bool := false
deriving DecidableEq

/-- The configuration values `Load.generate_random` reads out of the
`load_config` dict, with the dict-lookup defaults of `load.py`. -/
structure LoadConfig where
  base_rate_per_mile : ℚ := 2
  minimum_rate : ℚ := 500
  rate_variation : ℚ := 100
  lead_min : ℚ := 0.5
  lead_max : ℚ := 5
  lead_mean : ℚ := 3
  lead_std : ℚ := 1
  penalty_rate : ℚ := 0.20
deriving DecidableEq

namespace Load

/-- Embeds `Load.generate_random`.  The random draws are explicit parameters:
`idStr` is the uuid draw of `__post_init__`, `(ox, oy)`/`(dx, dy)` the
uniform origin/destination draws, `rate_draw` the `uniform(-variation,
variation)` draw and `lead_draw` the `normalvariate(mean, std)` draw. -/
def generateRandom (_grid_size : ℚ) (cfg : LoadConfig) (idStr : String)
    (ox oy dx dy rate_draw lead_draw : ℚ) : Load :=
  let origin := (ox, oy)
  let destination := (dx, dy)
  let distance := msqrt ((dx - ox) ^ 2 + (dy - oy) ^ 2)
  let market_rate :=
    max cfg.minimum_rate (distance * cfg.base_rate_per_mile + rate_draw)
  let lead_time := max cfg.lead_min (min cfg.lead_max lead_draw)
  { id := idStr
    origin := origin
    destination := destination
    market_rate := market_rate
    lead_time := lead_time
    initial_lead_time := lead_time
    penalty_rate := cfg.penalty_rate }

/-- Embeds `Load.get_distance`. -/
def getDistance (l : Load) : ℚ :=
  msqrt ((l.destination.1 - l.origin.1) ^ 2 + (l.destination.2 - l.origin.2) ^ 2)

/-- Embeds `Load.get_urgency_factor`.  (For `lead_time > 0` and
`initial_lead_time = 0` the Python code would raise `ZeroDivisionError`;
in `ℚ` the division yields `0`.  No theorem below exercises that corner.) -/
def getUrgencyFactor (l : Load) : ℚ :=
  if l.lead_time ≤ 0 then 1 else 1 - l.lead_time / l.initial_lead_time

/-- Embeds `Load.get_penalty_cost`. -/
def getPenaltyCost (l : Load) (consecutive_failures : ℕ) : ℚ :=
  let base_penalty := l.market_rate * l.penalty_rate
  let escalation_multiplier := 1 + (consecutive_failures : ℚ) * 0.1
  base_penalty * escalation_multiplier

/-- Embeds `Load.update_lead_time`. -/
def updateLeadTime (l : Load) (time_step : ℚ) : Load :=
  let lt := max 0 (l.lead_time - time_step)
  let l' := { l with lead_time := lt }
  if lt ≤ 0 ∧ l.is_covered = false then { l' with is_expired := true } else l'

/-- Embeds `Load.accept_bid`.  Note that the Python method performs no precondition
check: it sets the fields unconditionally. -/
def acceptBid (l : Load) (carrier_id : String) (bid_amount : ℚ) : Load :=
  { l with assigned_carrier_id := some carrier_id
           current_bid := some bid_amount
           current_bidder_id := some carrier_id
           is_covered := true }

/-- Embeds `Load.receive_bid`. -/
def receiveBid (l : Load) (carrier_id : String) (bid_amount : ℚ) : Load :=
  { l with current_bid := some bid_amount
           current_bidder_id := some carrier_id
           negotiation_rounds := l.negotiation_rounds + 1 }

end Load

/-- The `Carrier` agent of `carrier.py`.  The five characteristics drawn at `__init__`
are plain fields here. -/
structure Carrier where
  unique_id : String
  position : ℚ × ℚ
  is_available : Bool := true
  current_load : Option Load := none
  cost_per_mile : ℚ
  fixed_cost : ℚ
  desired_margin : ℚ
  max_bid_distance : ℚ
  aggressiveness : ℚ
  loads_completed : ℕ := 0
  total_revenue : ℚ := 0
  total_profit : ℚ := 0
deriving DecidableEq

namespace Carrier

/-- Embeds `Carrier.get_distance_to_origin`. -/
def getDistanceToOrigin (c : Carrier) (l : Load) : ℚ :=
  msqrt ((l.origin.1 - c.position.1) ^ 2 + (l.origin.2 - c.position.2) ^ 2)

/-- Embeds `Carrier.get_total_trip_distance`. -/
def getTotalTripDistance (c : Carrier) (l : Load) : ℚ :=
  c.getDistanceToOrigin l + l.getDistance

/-- Embeds `Carrier.calculate_cost`. -/
def calculateCost (c : Carrier) (l : Load) : ℚ :=
  c.getTotalTripDistance l * c.cost_per_mile + c.fixed_cost

/-- Embeds `Carrier.calculate_minimum_bid`. -/
def calculateMinimumBid (c : Carrier) (l : Load) : ℚ :=
  c.calculateCost l * (1 + c.desired_margin)

/-- Embeds `Carrier.is_interested_in_load`. -/
def isInterestedInLoad (c : Carrier) (l : Load) : Bool :=
  if c.is_available = false then false
  else if c.getDistanceToOrigin l > c.max_bid_distance then false
  else if c.calculateMinimumBid l > l.market_rate * 1.4 then false
  else if l.lead_time < c.getDistanceToOrigin l / 500 then false
  else true

/-- Embeds `Carrier.generate_bid`.  Here `market_factor` is the `uniform(0.9, 1.1)`
draw, made an explicit parameter. -/
def generateBid (c : Carrier) (l : Load) (market_factor : ℚ) : Option ℚ :=
  if c.isInterestedInLoad l = false then none
  else
    let min_bid := c.calculateMinimumBid l
    let urgency_factor := 1 - l.getUrgencyFactor * 0.1 * c.aggressiveness
    let bid := min_bid * market_factor * urgency_factor
    let cost := c.calculateCost l
    let bid := max bid (cost * 1.05)
    some (pyRound2 bid)

/-- Embeds `Carrier.accept_load`.  The `raise ValueError` on an unavailable carrier
is the `Except.error` branch. -/
def acceptLoad (c : Carrier) (l : Load) (agreed_price : ℚ) :
    Except String Carrier :=
  if c.is_available = false then
    .error ("Carrier " ++ c.unique_id ++ " is not available")
  else
    let cost := c.calculateCost l
    let profit := agreed_price - cost
    .ok { c with current_load := some l
                 is_available := false
                 total_revenue := c.total_revenue + agreed_price
                 total_profit := c.total_profit + profit }

end Carrier

/-- The broker state of `freighttech.py` `FreightTech.__init__`.  The
Python collections hold references to `Load` objects; references are
modelled by load ids.  `pending_negotiations` is the dict as an
association list. -/
structure FreightTechState where
  active_loads : List String
  completed_loads : List String := []
  expired_loads : List String := []
  pending_negotiations : List (String × List (String × ℚ)) := []
  total_revenue : ℚ := 0
  total_cost : ℚ := 0
  total_penalties : ℚ := 0
  consecutive_failures : ℕ := 0
deriving DecidableEq

/-- The part of `FreightBrokerageModel` the negotiation engine touches:
the carrier population and the broker. -/
structure ModelState where
  carriers : List Carrier
  broker : FreightTechState
deriving DecidableEq

/-- Embeds `FreightBrokerageModel.get_carrier`: first carrier whose `unique_id`
matches, else `None`. -/
def getCarrier (carriers : List Carrier) (carrier_id : String) : Option Carrier :=
  carriers.find? (fun c => c.unique_id == carrier_id)

/-- In-place mutation of the carrier object `get_carrier` returned:
replace the first carrier whose `unique_id` matches. -/
def setCarrier (carriers : List Carrier) (carrier_id : String) (c' : Carrier) :
    List Carrier :=
  match carriers with
  | [] => []
  | c :: rest =>
      if c.unique_id == carrier_id then c' :: rest
      else c :: setCarrier rest carrier_id c'

namespace FreightTech

/-- From `FreightTech.__init__`: `self.max_negotiation_rounds = 3`. -/
def defaultMaxNegotiationRounds : ℕ := 3

/-- Embeds `FreightTech.get_urgency_threshold` (reads only the load). -/
def getUrgencyThreshold (load : Load) : ℚ :=
  let base_threshold := load.market_rate
  let urgency_factor := load.getUrgencyFactor
  if urgency_factor > 0.8 then base_threshold * 1.3
  else if urgency_factor > 0.5 then base_threshold * 1.15
  else base_threshold * 0.95

/-- Embeds `FreightTech.should_accept_bid` (reads the load, the bid and the
broker's `consecutive_failures`; the `carrier_id` parameter is unused,
as in the source). -/
def shouldAcceptBid (load : Load) (bid : ℚ) (_carrier_id : String)
    (consecutive_failures : ℕ) : Bool :=
  let threshold := getUrgencyThreshold load
  if bid ≤ threshold then true
  else
    let urgency := load.getUrgencyFactor
    let penalty_cost := load.getPenaltyCost consecutive_failures
    if bid < penalty_cost then true
    else if urgency > 0.9 ∧ load.negotiation_rounds ≥ 2 then true
    else false

/-- Embeds `FreightTech.generate_counter_offer`. -/
def generateCounterOffer (load : Load) (original_bid : ℚ)
    (max_negotiation_rounds : ℕ) : Option ℚ :=
  if load.negotiation_rounds ≥ max_negotiation_rounds then none
  else
    let threshold := getUrgencyThreshold load
    let urgency := load.getUrgencyFactor
    let counter :=
      if urgency < 0.3 then threshold * 0.9
      else if urgency < 0.7 then threshold * 0.95
      else threshold * 1.05
    let min_counter := load.market_rate * 0.8
    let counter := max counter min_counter
    if counter ≥ original_bid then none
    else some (pyRound2 counter)

/-- Embeds `FreightTech.carrier_accepts_counter`. -/
def carrierAcceptsCounter (carrier : Carrier) (load : Load)
    (counter_offer : ℚ) : Bool :=
  let min_acceptable := carrier.calculateMinimumBid load
  let tolerance_factor := 1 + carrier.aggressiveness * 0.1
  counter_offer ≥ min_acceptable * tolerance_factor

/-- Embeds `sorted(bids, key=lambda x: x[1])[0]` of `FreightTech.process_bids`:
Python's `sorted` is a stable merge sort. -/
def selectedBid (bids : List (String × ℚ)) : Option (String × ℚ) :=
  (bids.mergeSort (fun a b => decide (a.2 ≤ b.2))).head?

/-- The four ways `FreightTech.process_bids` can end. -/
inductive BidDecision where
  /-- `should_accept_bid` was true: `accept_bid` at the best bid. -/
  | acceptBest (carrier_id : String) (price : ℚ)
  /-- the best bidder accepted a counter: `accept_bid` at the counter price. -/
  | acceptCounter (carrier_id : String) (price : ℚ)
  /-- neither: `load.receive_bid` records the best bid. -/
  | recordBest (carrier_id : String) (price : ℚ)
  /-- `if not bids: return`. -/
  | noBids
deriving DecidableEq

/-- The decision logic of `FreightTech.process_bids` (which of `accept_bid`
at the best bid, `accept_bid` at a counter price, or `load.receive_bid`
runs, and with which arguments). -/
def processBidsDecision (carriers : List Carrier) (consecutive_failures : ℕ)
    (max_negotiation_rounds : ℕ) (load : Load) (bids : List (String × ℚ)) :
    BidDecision :=
  match selectedBid bids with
  | none => .noBids
  | some (best_carrier_id, best_bid) =>
    if shouldAcceptBid load best_bid best_carrier_id consecutive_failures then
      .acceptBest best_carrier_id best_bid
    else
      match generateCounterOffer load best_bid max_negotiation_rounds with
      | some counter_offer =>
          match getCarrier carriers best_carrier_id with
          | some carrier =>
              if carrierAcceptsCounter carrier load counter_offer then
                .acceptCounter best_carrier_id counter_offer
              else .recordBest best_carrier_id best_bid
          | none => .recordBest best_carrier_id best_bid
      | none => .recordBest best_carrier_id best_bid

/-- Embeds `FreightTech.accept_bid`.  Here `markup_draw` is the `uniform(1.05, 1.25)`
customer-markup draw.  `list.remove` raising `ValueError` when the load is
not in `active_loads` is the `Except.error` branch. -/
def acceptBid (s : ModelState) (load : Load) (carrier_id : String)
    (agreed_price : ℚ) (markup_draw : ℚ) : Except String ModelState :=
  let load' := load.acceptBid carrier_id agreed_price
  let step : Except String (List Carrier) :=
    match getCarrier s.carriers carrier_id with
    | some carrier =>
        match carrier.acceptLoad load' agreed_price with
        | .ok carrier' => .ok (setCarrier s.carriers carrier_id carrier')
        | .error e => .error e
    | none => .ok s.carriers
  match step with
  | .error e => .error e
  | .ok carriers' =>
    let customer_rate := load.market_rate * markup_draw
    if load.id ∈ s.broker.active_loads then
      .ok { carriers := carriers'
            broker := { s.broker with
              total_revenue := s.broker.total_revenue + customer_rate
              total_cost := s.broker.total_cost + agreed_price
              active_loads := s.broker.active_loads.erase load.id
              completed_loads := s.broker.completed_loads ++ [load.id]
              consecutive_failures := 0
              pending_negotiations :=
                s.broker.pending_negotiations.filter (fun p => p.1 ≠ load.id) } }
    else .error "list.remove(x): x not in list"

/-- Embeds `FreightTech.handle_expired_load`. -/
def handleExpiredLoad (s : ModelState) (load : Load) :
    Except String ModelState :=
  let penalty := load.getPenaltyCost s.broker.consecutive_failures
  if load.id ∈ s.broker.active_loads then
    .ok { s with broker := { s.broker with
            total_penalties := s.broker.total_penalties + penalty
            consecutive_failures := s.broker.consecutive_failures + 1
            active_loads := s.broker.active_loads.erase load.id
            expired_loads := s.broker.expired_loads ++ [load.id]
            pending_negotiations :=
              s.broker.pending_negotiations.filter (fun p => p.1 ≠ load.id) } }
  else .error "list.remove(x): x not in list"

/-- Iterates `handle_expired_load` over a run of consecutive expiries. -/
def runExpired (s : ModelState) (loads : List Load) :
    Except String ModelState :=
  loads.foldlM handleExpiredLoad s

/-- The value of `total_penalties` after the first `k` of a run of consecutive
`handle_expired_load` calls (`0` if some call raised). -/
def penaltiesAfter (s : ModelState) (loads : List Load) (k : ℕ) : ℚ :=
  match runExpired s (loads.take k) with
  | .ok s' => s'.broker.total_penalties
  | .error _ => 0

end FreightTech

/-! ### Operation traces on a single load

The operations `freighttech.py` performs on one `Load` object:
`update_lead_time` (the per-step decay), `receive_bid` (a deferred
decision) and `accept_bid` (coverage). -/

/-- One operation applied to a load. -/
inductive LoadOp where
  | update (time_step : ℚ)
  | receive (carrier_id : String) (bid : ℚ)
  | accept (carrier_id : String) (bid : ℚ)
deriving DecidableEq

/-- Apply one operation. -/
def applyOp (l : Load) : LoadOp → Load
  | .update t => l.updateLeadTime t
  | .receive c b => l.receiveBid c b
  | .accept c b => l.acceptBid c b

/-- Apply a sequence of operations. -/
def runOps (l : Load) (ops : List LoadOp) : Load := ops.foldl applyOp l

/-- Holds when `accept` is only ever invoked while the load is not expired (the
discipline the broker's step ordering is meant to guarantee). -/
def acceptOnlyLive (l : Load) : List LoadOp → Bool
  | [] => true
  | op :: ops =>
      (match op with
       | .accept _ _ => !l.is_expired
       | _ => true) && acceptOnlyLive (applyOp l op) ops

/-! ### Concrete instances used by counterexamples and witnesses -/

/-- A concrete carrier sitting exactly at a load's origin (all trip
distances are `0`, so its cost is just its fixed cost). -/
def marginCexCarrier : Carrier :=
  { unique_id := "C1"
    position := (0, 0)
    cost_per_mile := 1.5
    fixed_cost := 200.42
    desired_margin := 0.15
    max_bid_distance := 300
    aggressiveness := 0.85 }

/-- A concrete load at the pickup deadline (`lead_time = 0`, maximal
urgency), for which `marginCexCarrier` is interested. -/
def marginCexLoad : Load :=
  { id := "L1"
    origin := (0, 0)
    destination := (0, 0)
    market_rate := 1000
    lead_time := 0
    initial_lead_time := 2 }

/-- A fresh, non-urgent load with `market_rate = 100.01`. -/
def counterCexLoad : Load :=
  { id := "L4"
    origin := (0, 0)
    destination := (0, 0)
    market_rate := 100.01
    lead_time := 2
    initial_lead_time := 2 }

/-- A fresh non-urgent load with `market_rate = 100`. -/
def counterWitLoad : Load :=
  { id := "L4w"
    origin := (0, 0)
    destination := (0, 0)
    market_rate := 100
    lead_time := 2
    initial_lead_time := 2 }

/-- A load that has already expired. -/
def expiredLoad : Load :=
  { id := "L6"
    origin := (0, 0)
    destination := (0, 0)
    market_rate := 100
    lead_time := 0
    initial_lead_time := 1
    is_expired := true }

/-- An unavailable (busy) carrier. -/
def busyCarrier : Carrier :=
  { unique_id := "CB"
    position := (0, 0)
    is_available := false
    cost_per_mile := 1.5
    fixed_cost := 100
    desired_margin := 0.2
    max_bid_distance := 300
    aggressiveness := 0.5 }

/-- A fresh load with one day of lead time. -/
def shortLoad : Load :=
  { id := "L5"
    origin := (0, 0)
    destination := (0, 0)
    market_rate := 100
    lead_time := 1
    initial_lead_time := 1 }

/-- A fresh load with two days of lead time. -/
def freshLoad : Load :=
  { id := "L5w"
    origin := (0, 0)
    destination := (0, 0)
    market_rate := 100
    lead_time := 2
    initial_lead_time := 2 }

/-- An available carrier. -/
def availCarrier : Carrier :=
  { unique_id := "CA"
    position := (0, 0)
    cost_per_mile := 1.5
    fixed_cost := 100
    desired_margin := 0.2
    max_bid_distance := 300
    aggressiveness := 0.5 }

/-- A model with one available carrier and one active load (`freshLoad`). -/
def smallModel : ModelState :=
  { carriers := [availCarrier]
    broker := { active_loads := ["L5w"] } }

/-- A model with no carriers at all and one active load (`freshLoad`). -/
def emptyCarrierModel : ModelState :=
  { carriers := []
    broker := { active_loads := ["L5w"] } }

/-- An expiring load: `market_rate * penalty_rate = 100 * 0.2 = 20`. -/
def expLoadA : Load :=
  { id := "L7a"
    origin := (0, 0)
    destination := (0, 0)
    market_rate := 100
    penalty_rate := 0.2
    lead_time := 0
    initial_lead_time := 1 }

/-- Another expiring load: `market_rate * penalty_rate = 200 * 0.1 = 20`. -/
def expLoadB : Load :=
  { id := "L7b"
    origin := (0, 0)
    destination := (0, 0)
    market_rate := 200
    penalty_rate := 0.1
    lead_time := 0
    initial_lead_time := 1 }

/-- A model whose broker manages the two expiring loads. -/
def expModel : ModelState :=
  { carriers := []
    broker := { active_loads := ["L7a", "L7b"] } }

/-- The spec's scenario load: `market_rate = 1000`, fresh (urgency `0`),
so the urgency threshold is `950`. -/
def scenarioLoad : Load :=
  { id := "LW"
    origin := (0, 0)
    destination := (0, 0)
    market_rate := 1000
    lead_time := 2
    initial_lead_time := 2 }

/-! ### General lemmas about the rounding model -/

theorem msqrt_zero : msqrt 0 = 0 := by simp [msqrt, Rat.sqrt]

theorem roundHalfEven_ge (x : ℚ) : x - 1/2 ≤ (roundHalfEven x : ℚ) := by
  unfold roundHalfEven
  have hf : (⌊x⌋ : ℚ) ≤ x := Int.floor_le x
  have hf' : x < ⌊x⌋ + 1 := Int.lt_floor_add_one x
  split_ifs <;> push_cast <;> linarith

theorem roundHalfEven_le (x : ℚ) : (roundHalfEven x : ℚ) ≤ x + 1/2 := by
  unfold roundHalfEven
  have hf : (⌊x⌋ : ℚ) ≤ x := Int.floor_le x
  have hf' : x < ⌊x⌋ + 1 := Int.lt_floor_add_one x
  split_ifs <;> push_cast <;> linarith

theorem pyRound2_ge (x : ℚ) : x - 1/200 ≤ pyRound2 x := by
  unfold pyRound2
  rw [le_div_iff₀ (by norm_num : (0:ℚ) < 100)]
  nlinarith [roundHalfEven_ge (x * 100)]

theorem pyRound2_le (x : ℚ) : pyRound2 x ≤ x + 1/200 := by
  unfold pyRound2
  rw [div_le_iff₀ (by norm_num : (0:ℚ) < 100)]
  nlinarith [roundHalfEven_le (x * 100)]

/-! ### C3: the 5%-margin floor of `Carrier.generate_bid` -/

/-- C3 counterexample: `generate_bid` rounds the floored bid to two decimal
places, and the rounding can land strictly below `cost * 1.05`.  Here the
cost is `200.42`, the floor is `210.441`, the raw bid
`230.483 * 0.92 * 0.915 = 194.02…` is below the floor, so the bid is
floored to `210.441` and then rounded to `210.44 < 210.441`. -/
theorem generateBid_margin_floor_cex :
    marginCexCarrier.generateBid marginCexLoad (92/100) = some (21044/100) ∧
    (21044/100 : ℚ) < marginCexCarrier.calculateCost marginCexLoad * 1.05 := by
  constructor
  · norm_num [Carrier.generateBid, Carrier.isInterestedInLoad,
      Carrier.calculateMinimumBid, Carrier.calculateCost,
      Carrier.getTotalTripDistance, Carrier.getDistanceToOrigin,
      Load.getDistance, Load.getUrgencyFactor, marginCexCarrier, marginCexLoad,
      msqrt_zero, pyRound2, roundHalfEven]
  · norm_num [Carrier.calculateCost, Carrier.getTotalTripDistance,
      Carrier.getDistanceToOrigin, Load.getDistance, marginCexCarrier,
      marginCexLoad, msqrt_zero]

/-- C3, amended: the value `generate_bid` floors is `cost * 1.05` before
rounding, so every returned bid is at least `cost * 1.05` minus half a cent
(the two-decimal rounding can lose at most `1/200`). -/
theorem generateBid_margin_floor (c : Carrier) (l : Load) (market_factor b : ℚ)
    (h : c.generateBid l market_factor = some b) :
    c.calculateCost l * 1.05 - 1/200 ≤ b := by
  unfold Carrier.generateBid at h
  split at h
  · exact absurd h (by simp)
  · have hb : b = pyRound2 (max (c.calculateMinimumBid l * market_factor *
        (1 - l.getUrgencyFactor * 0.1 * c.aggressiveness))
        (c.calculateCost l * 1.05)) := by
      simpa using h.symm
    subst hb
    calc c.calculateCost l * 1.05 - 1/200
        ≤ max (c.calculateMinimumBid l * market_factor *
            (1 - l.getUrgencyFactor * 0.1 * c.aggressiveness))
            (c.calculateCost l * 1.05) - 1/200 := by
          have := le_max_right (c.calculateMinimumBid l * market_factor *
            (1 - l.getUrgencyFactor * 0.1 * c.aggressiveness))
            (c.calculateCost l * 1.05)
          linarith
      _ ≤ _ := pyRound2_ge _

/-- C3 witness: the amended bound at the concrete carrier and load of the
counterexample (`210.44 ≥ 210.441 - 0.005`). -/
theorem generateBid_margin_floor_witness :
    marginCexCarrier.calculateCost marginCexLoad * 1.05 - 1/200 ≤ 21044/100 :=
  generateBid_margin_floor marginCexCarrier marginCexLoad (92/100) (21044/100)
    (by norm_num [Carrier.generateBid, Carrier.isInterestedInLoad,
      Carrier.calculateMinimumBid, Carrier.calculateCost,
      Carrier.getTotalTripDistance, Carrier.getDistanceToOrigin,
      Load.getDistance, Load.getUrgencyFactor, marginCexCarrier, marginCexLoad,
      msqrt_zero, pyRound2, roundHalfEven])

/-! ### C4: `FreightTech.generate_counter_offer` -/

/-- C4 counterexample: the `counter >= original_bid` test happens *before*
rounding, so the returned (rounded) counter can fail to be strictly below
the original bid.  Here urgency is `0`, the threshold is `95.0095`, the
counter is `85.50855 < 85.509`, but it rounds to `85.51 ≥ 85.509`. -/
theorem generateCounterOffer_cex :
    FreightTech.generateCounterOffer counterCexLoad (85509/1000) 3 =
      some (8551/100) ∧
    ¬((8551/100 : ℚ) < 85509/1000) := by
  constructor
  · norm_num [FreightTech.generateCounterOffer, FreightTech.getUrgencyThreshold,
      Load.getUrgencyFactor, counterCexLoad, pyRound2, roundHalfEven]
  · norm_num

/-- C4, amended: `generate_counter_offer` refuses to counter when
`negotiation_rounds ≥ max_negotiation_rounds`; when it returns a price, that
price is the two-decimal rounding of the urgency-band multiple of the
threshold (`threshold*0.9` for urgency `< 0.3`, `threshold*0.95` for urgency
`< 0.7`, else `threshold*1.05`) clamped up to the floor `market_rate*0.8`;
the pre-rounding counter is `≥ market_rate*0.8` and strictly below the
original bid, so the returned price is within half a cent of those bounds:
`≥ market_rate*0.8 - 1/200` and `< original_bid + 1/200`. -/
theorem generateCounterOffer_spec (load : Load) (original_bid : ℚ)
    (max_negotiation_rounds : ℕ) :
    (load.negotiation_rounds ≥ max_negotiation_rounds →
      FreightTech.generateCounterOffer load original_bid
        max_negotiation_rounds = none) ∧
    (∀ p, FreightTech.generateCounterOffer load original_bid
        max_negotiation_rounds = some p →
      ∃ counter,
        counter = max
          (if load.getUrgencyFactor < 0.3 then
            FreightTech.getUrgencyThreshold load * 0.9
          else if load.getUrgencyFactor < 0.7 then
            FreightTech.getUrgencyThreshold load * 0.95
          else FreightTech.getUrgencyThreshold load * 1.05)
          (load.market_rate * 0.8) ∧
        p = pyRound2 counter ∧
        load.market_rate * 0.8 ≤ counter ∧
        counter < original_bid ∧
        load.market_rate * 0.8 - 1/200 ≤ p ∧
        p < original_bid + 1/200) := by
  constructor
  · intro hge
    unfold FreightTech.generateCounterOffer
    simp [hge]
  · intro p hp
    unfold FreightTech.generateCounterOffer at hp
    split at hp
    · exact absurd hp (by simp)
    · set counter := max
        (if load.getUrgencyFactor < 0.3 then
          FreightTech.getUrgencyThreshold load * 0.9
        else if load.getUrgencyFactor < 0.7 then
          FreightTech.getUrgencyThreshold load * 0.95
        else FreightTech.getUrgencyThreshold load * 1.05)
        (load.market_rate * 0.8) with hcounter
      by_cases hlt : counter ≥ original_bid
      · rw [if_pos hlt] at hp
        exact absurd hp (by simp)
      · rw [if_neg hlt] at hp
        have hp' : p = pyRound2 counter := by simpa using hp.symm
        push_neg at hlt
        refine ⟨counter, rfl, hp', le_max_right _ _, hlt, ?_, ?_⟩
        · calc load.market_rate * 0.8 - 1/200 ≤ counter - 1/200 := by
                have := le_max_right
                  (if load.getUrgencyFactor < 0.3 then
                    FreightTech.getUrgencyThreshold load * 0.9
                  else if load.getUrgencyFactor < 0.7 then
                    FreightTech.getUrgencyThreshold load * 0.95
                  else FreightTech.getUrgencyThreshold load * 1.05)
                  (load.market_rate * 0.8)
                rw [← hcounter] at this
                linarith
            _ ≤ p := hp' ▸ pyRound2_ge counter
        · calc p ≤ counter + 1/200 := hp' ▸ pyRound2_le counter
            _ < original_bid + 1/200 := by linarith

/-- C4 witness: a counter is produced for a fresh non-urgent load with
`market_rate = 100` against an original bid of `1000`, and the amended
bounds hold there. -/
theorem generateCounterOffer_spec_witness :
    ∃ counter, counter = max
        (if counterWitLoad.getUrgencyFactor < 0.3 then
          FreightTech.getUrgencyThreshold counterWitLoad * 0.9
        else if counterWitLoad.getUrgencyFactor < 0.7 then
          FreightTech.getUrgencyThreshold counterWitLoad * 0.95
        else FreightTech.getUrgencyThreshold counterWitLoad * 1.05)
        (counterWitLoad.market_rate * 0.8) ∧
      (171/2 : ℚ) = pyRound2 counter ∧
      counterWitLoad.market_rate * 0.8 ≤ counter ∧
      counter < 1000 ∧
      counterWitLoad.market_rate * 0.8 - 1/200 ≤ 171/2 ∧
      (171/2 : ℚ) < 1000 + 1/200 :=
  (generateCounterOffer_spec counterWitLoad 1000 3).2 (171/2)
    (by norm_num [FreightTech.generateCounterOffer,
      FreightTech.getUrgencyThreshold, Load.getUrgencyFactor, counterWitLoad,
      pyRound2, roundHalfEven])

/-! ### C6: misuse of the acceptance operations -/

/-- C6 counterexample: `Load.accept_bid` performs no precondition check.
Called on an already-expired load it does not fail; it silently marks the
load covered (so the state changes). -/
theorem load_acceptBid_no_precondition_cex :
    expiredLoad.is_expired = true ∧
    (expiredLoad.acceptBid "c" 100).is_covered = true ∧
    expiredLoad.acceptBid "c" 100 ≠ expiredLoad := by
  refine ⟨rfl, rfl, fun h => ?_⟩
  have := congrArg Load.is_covered h
  simp [Load.acceptBid, expiredLoad] at this

/-- C6, amended: only `Carrier.accept_load` guards its precondition: on an
unavailable carrier it raises (`ValueError`, the `Except.error` branch), so
no updated carrier state is produced.  `Load.accept_bid` checks nothing and
always marks the load covered, even when the load is already covered or
expired. -/
theorem accept_misuse_amended :
    (∀ (c : Carrier) (l : Load) (p : ℚ), c.is_available = false →
      c.acceptLoad l p =
        .error ("Carrier " ++ c.unique_id ++ " is not available")) ∧
    (∀ (l : Load) (carrier_id : String) (p : ℚ),
      (l.acceptBid carrier_id p).is_covered = true) := by
  constructor
  · intro c l p h
    unfold Carrier.acceptLoad
    rw [if_pos h]
  · intro l carrier_id p
    rfl

/-- C6 witness: the amended statement at a concrete busy carrier and a
concrete expired load. -/
theorem accept_misuse_amended_witness :
    busyCarrier.acceptLoad expiredLoad 100 =
      .error ("Carrier " ++ busyCarrier.unique_id ++ " is not available") ∧
    (expiredLoad.acceptBid "c" 100).is_covered = true :=
  ⟨accept_misuse_amended.1 busyCarrier expiredLoad 100 rfl,
   accept_misuse_amended.2 expiredLoad "c" 100⟩

/-! ### C5: the coverage/expiry flags along operation traces -/

/-- C5 counterexample: from a fresh load, let it expire and then call
`accept_bid` (which checks nothing): both `is_covered` and `is_expired`
end up true simultaneously. -/
theorem load_flags_cex :
    shortLoad.is_covered = false ∧ shortLoad.is_expired = false ∧
    (runOps shortLoad [.update 1, .accept "c" 100]).is_covered = true ∧
    (runOps shortLoad [.update 1, .accept "c" 100]).is_expired = true := by
  refine ⟨rfl, rfl, ?_, ?_⟩ <;>
    norm_num [runOps, applyOp, Load.updateLeadTime, Load.acceptBid, shortLoad]

/-- Helper for C5: the mutual-exclusion invariant is preserved along any
trace in which `accept` is only invoked on unexpired loads. -/
theorem runOps_not_both (l : Load) (ops : List LoadOp)
    (hinv : ¬(l.is_covered = true ∧ l.is_expired = true))
    (hlive : acceptOnlyLive l ops = true) :
    ¬((runOps l ops).is_covered = true ∧ (runOps l ops).is_expired = true) := by
  induction ops generalizing l with
  | nil => exact hinv
  | cons op ops ih =>
    cases op with
    | update t =>
        simp only [acceptOnlyLive, Bool.true_and] at hlive
        refine ih _ ?_ hlive
        simp only [applyOp, Load.updateLeadTime]
        split
        · rename_i h
          simp [h.2]
        · exact hinv
    | receive c b =>
        simp only [acceptOnlyLive, Bool.true_and] at hlive
        refine ih _ ?_ hlive
        simpa [applyOp, Load.receiveBid] using hinv
    | accept c b =>
        simp only [acceptOnlyLive, Bool.and_eq_true, Bool.not_eq_true'] at hlive
        refine ih _ ?_ hlive.2
        simp [applyOp, Load.acceptBid, hlive.1]

/-- C5, amended: starting from a freshly created load (both flags false),
along any sequence of `update_lead_time`, `receive_bid` and `accept_bid`
calls in which `accept_bid` is only invoked while the load is unexpired,
`is_covered` and `is_expired` are never simultaneously true; and —
unconditionally — once either flag is true, an `update_lead_time` call
changes neither flag. -/
theorem load_flags_invariant (l0 : Load) (ops : List LoadOp)
    (hcov : l0.is_covered = false) (hexp : l0.is_expired = false)
    (hlive : acceptOnlyLive l0 ops = true) :
    (¬((runOps l0 ops).is_covered = true ∧
       (runOps l0 ops).is_expired = true)) ∧
    (∀ (l : Load) (t : ℚ), l.is_covered = true ∨ l.is_expired = true →
      (l.updateLeadTime t).is_covered = l.is_covered ∧
      (l.updateLeadTime t).is_expired = l.is_expired) := by
  constructor
  · exact runOps_not_both l0 ops (by simp [hcov]) hlive
  · intro l t h
    simp only [Load.updateLeadTime]
    split
    · rename_i hsp
      rcases h with h | h
      · rw [hsp.2] at h; exact absurd h (by simp)
      · exact ⟨rfl, h.symm⟩
    · exact ⟨rfl, rfl⟩

/-- C5 witness: a well-ordered trace on a fresh load — bid recorded, one
day passes, bid accepted, more time passes — satisfies the discipline and
never sets both flags. -/
theorem load_flags_invariant_witness :
    acceptOnlyLive freshLoad
      [.receive "a" 100, .update 1, .accept "a" 90, .update 5] = true ∧
    ¬((runOps freshLoad
        [.receive "a" 100, .update 1, .accept "a" 90, .update 5]).is_covered
          = true ∧
      (runOps freshLoad
        [.receive "a" 100, .update 1, .accept "a" 90, .update 5]).is_expired
          = true) := by
  have hlive : acceptOnlyLive freshLoad
      [.receive "a" 100, .update 1, .accept "a" 90, .update 5] = true := by
    norm_num [acceptOnlyLive, applyOp, Load.receiveBid, Load.updateLeadTime,
      Load.acceptBid, freshLoad]
  exact ⟨hlive, (load_flags_invariant freshLoad _ rfl rfl hlive).1⟩

/-! ### C8: `Load.get_urgency_factor` -/

/-- C8: for `0 ≤ lead_time ≤ initial_lead_time` the urgency factor is in
`[0,1]`; it is `0` on a fresh load (when `initial_lead_time > 0`), exactly
`1` when `lead_time ≤ 0`, exactly `1` when `initial_lead_time = 0` (the
guard makes that case maximally urgent, with no division by zero), and it
is non-decreasing as `lead_time` decreases. -/
theorem urgencyFactor_spec (l : Load)
    (h0 : 0 ≤ l.lead_time) (h1 : l.lead_time ≤ l.initial_lead_time) :
    (0 ≤ l.getUrgencyFactor ∧ l.getUrgencyFactor ≤ 1) ∧
    (l.lead_time = l.initial_lead_time → 0 < l.initial_lead_time →
      l.getUrgencyFactor = 0) ∧
    (l.lead_time ≤ 0 → l.getUrgencyFactor = 1) ∧
    (l.initial_lead_time = 0 → l.getUrgencyFactor = 1) ∧
    (∀ t1 t2 : ℚ, 0 ≤ t1 → t1 ≤ t2 → t2 ≤ l.initial_lead_time →
      ({ l with lead_time := t2 } : Load).getUrgencyFactor ≤
        ({ l with lead_time := t1 } : Load).getUrgencyFactor) := by
  refine ⟨?_, ?_, ?_, ?_, ?_⟩
  · unfold Load.getUrgencyFactor
    split
    · norm_num
    · rename_i h
      push_neg at h
      have hip : 0 < l.initial_lead_time := lt_of_lt_of_le h h1
      constructor
      · have : l.lead_time / l.initial_lead_time ≤ 1 :=
          (div_le_one hip).mpr h1
        linarith
      · have : 0 ≤ l.lead_time / l.initial_lead_time :=
          div_nonneg h0 hip.le
        linarith
  · intro heq hip
    unfold Load.getUrgencyFactor
    rw [if_neg (by rw [heq]; exact not_le.mpr hip)]
    rw [heq, div_self hip.ne']
    ring
  · intro h
    unfold Load.getUrgencyFactor
    rw [if_pos h]
  · intro h
    have hl0 : l.lead_time ≤ 0 := h ▸ h1
    unfold Load.getUrgencyFactor
    rw [if_pos hl0]
  · intro t1 t2 ht1 ht12 ht2
    unfold Load.getUrgencyFactor
    dsimp only
    split
    · rename_i h2
      split
      · exact le_refl 1
      · rename_i h1'
        push_neg at h1'
        linarith
    · rename_i h2
      push_neg at h2
      have hip : 0 < l.initial_lead_time := lt_of_lt_of_le h2 ht2
      split
      · have : 0 ≤ t2 / l.initial_lead_time := div_nonneg h2.le hip.le
        linarith
      · rename_i h1'
        push_neg at h1'
        have : t1 / l.initial_lead_time ≤ t2 / l.initial_lead_time :=
          (div_le_div_iff_of_pos_right hip).mpr ht12
        linarith

/-- C8 witness: the bounds at a concrete load halfway through its lead
time (`lead_time = 1`, `initial_lead_time = 2`). -/
theorem urgencyFactor_spec_witness :
    0 ≤ freshLoad.lead_time ∧
    freshLoad.lead_time ≤ freshLoad.initial_lead_time ∧
    (0 ≤ freshLoad.getUrgencyFactor ∧ freshLoad.getUrgencyFactor ≤ 1) :=
  ⟨by norm_num [freshLoad], by norm_num [freshLoad],
   (urgencyFactor_spec freshLoad (by norm_num [freshLoad])
     (by norm_num [freshLoad])).1⟩

/-! ### C9: `Load.generate_random` followed by `update_lead_time(0)` -/

/-- C9 counterexample: with a load configuration whose lead-time lower
bound is `0` (the claim quantifies over *any* configuration) and a normal
draw below it, the generated load has `lead_time = 0`, and the immediate
`update_lead_time(0)` sets `is_expired`. -/
theorem generateRandom_update_zero_cex :
    (Load.generateRandom 100 { lead_min := 0 } "L9" 0 0 0 0 0 (-1)).is_expired
        = false ∧
    ((Load.generateRandom 100 { lead_min := 0 } "L9" 0 0 0 0 0
        (-1)).updateLeadTime 0).is_expired = true := by
  constructor
  · rfl
  · norm_num [Load.generateRandom, Load.updateLeadTime]

/-- C9, amended: whenever the configuration's lead-time lower bound is
positive (as the default `0.5` is), a freshly generated load survives
`update_lead_time(0)` completely unchanged, and no expiry is set. -/
theorem generateRandom_update_zero (g : ℚ) (cfg : LoadConfig) (idStr : String)
    (ox oy dx dy rate_draw lead_draw : ℚ) (hmin : 0 < cfg.lead_min) :
    (Load.generateRandom g cfg idStr ox oy dx dy rate_draw
        lead_draw).updateLeadTime 0 =
      Load.generateRandom g cfg idStr ox oy dx dy rate_draw lead_draw ∧
    ((Load.generateRandom g cfg idStr ox oy dx dy rate_draw
        lead_draw).updateLeadTime 0).is_expired = false := by
  have hlt : 0 < (Load.generateRandom g cfg idStr ox oy dx dy rate_draw
      lead_draw).lead_time := lt_of_lt_of_le hmin (le_max_left _ _)
  have heq : (Load.generateRandom g cfg idStr ox oy dx dy rate_draw
      lead_draw).updateLeadTime 0 =
      Load.generateRandom g cfg idStr ox oy dx dy rate_draw lead_draw := by
    set l := Load.generateRandom g cfg idStr ox oy dx dy rate_draw lead_draw
      with hl
    unfold Load.updateLeadTime
    have hmax : max 0 (l.lead_time - 0) = l.lead_time := by
      rw [sub_zero]
      exact max_eq_right hlt.le
    rw [hmax, if_neg (fun hc => absurd hc.1 (not_le.mpr hlt))]
  refine ⟨heq, ?_⟩
  rw [heq]
  rfl

/-- C9 witness: the amended statement with the default configuration
(`lead_min = 0.5 > 0`) and concrete draws. -/
theorem generateRandom_update_zero_witness :
    (0 : ℚ) < ({} : LoadConfig).lead_min ∧
    (Load.generateRandom 100 {} "w" 0 0 3 4 0 2).updateLeadTime 0 =
      Load.generateRandom 100 {} "w" 0 0 3 4 0 2 :=
  ⟨by norm_num,
   (generateRandom_update_zero 100 {} "w" 0 0 3 4 0 2 (by norm_num)).1⟩

/-! ### C2 and C10: `FreightTech.accept_bid` -/

/-- Helper: after replacing the carrier object `get_carrier` found,
`get_carrier` returns the replacement (the ids match). -/
theorem getCarrier_setCarrier (cs : List Carrier) (cid : String)
    (c c' : Carrier) (h : getCarrier cs cid = some c)
    (hid : c'.unique_id = c.unique_id) :
    getCarrier (setCarrier cs cid c') cid = some c' := by
  induction cs with
  | nil => simp [getCarrier] at h
  | cons x rest ih =>
    unfold getCarrier at h ⊢
    unfold setCarrier
    by_cases hx : (x.unique_id == cid) = true
    · rw [@List.find?_cons_of_pos _ (fun c => c.unique_id == cid) x rest hx]
        at h
      have hcx : c = x := by injection h with h'; exact h'.symm
      have hcc : (c'.unique_id == cid) = true := by
        rw [hid, hcx]; exact hx
      rw [if_pos hx]
      rw [@List.find?_cons_of_pos _ (fun c => c.unique_id == cid) c' rest hcc]
    · rw [@List.find?_cons_of_neg _ (fun c => c.unique_id == cid) x rest hx]
        at h
      rw [if_neg hx]
      rw [@List.find?_cons_of_neg _ (fun c => c.unique_id == cid) x
        (setCarrier rest cid c') hx]
      exact ih h

/-- C2: when the carrier exists and is available and the load is active,
`accept_bid` succeeds; afterwards the load object is covered, the carrier
is unavailable and holds the (covered) load, `consecutive_failures` is `0`,
the agreed price was added to `total_cost` and `market_rate * markup_draw`
(with `markup_draw` drawn from `Uniform(1.05, 1.25)`) to `total_revenue`,
the load moved from `active_loads` to `completed_loads`, and its pending
negotiation entry is gone. -/
theorem acceptBid_spec (s : ModelState) (load : Load) (carrier_id : String)
    (agreed_price markup_draw : ℚ) (carrier : Carrier)
    (hc : getCarrier s.carriers carrier_id = some carrier)
    (havail : carrier.is_available = true)
    (hmem : load.id ∈ s.broker.active_loads)
    (hnodup : s.broker.active_loads.Nodup)
    (hu1 : 1.05 ≤ markup_draw) (hu2 : markup_draw ≤ 1.25) :
    ∃ s', FreightTech.acceptBid s load carrier_id agreed_price markup_draw =
        .ok s' ∧
      (load.acceptBid carrier_id agreed_price).is_covered = true ∧
      (∃ carrier', getCarrier s'.carriers carrier_id = some carrier' ∧
        carrier'.is_available = false ∧
        carrier'.current_load = some (load.acceptBid carrier_id agreed_price)) ∧
      s'.broker.consecutive_failures = 0 ∧
      s'.broker.total_cost = s.broker.total_cost + agreed_price ∧
      s'.broker.total_revenue =
        s.broker.total_revenue + load.market_rate * markup_draw ∧
      s'.broker.active_loads = s.broker.active_loads.erase load.id ∧
      load.id ∉ s'.broker.active_loads ∧
      s'.broker.completed_loads = s.broker.completed_loads ++ [load.id] ∧
      ∀ p ∈ s'.broker.pending_negotiations, p.1 ≠ load.id := by
  unfold FreightTech.acceptBid
  rw [hc]
  have hcond : ¬(carrier.is_available = false) := by simp [havail]
  simp only [Carrier.acceptLoad, if_neg hcond, if_pos hmem]
  refine ⟨_, rfl, rfl, ?_, rfl, rfl, rfl, rfl, ?_, rfl, ?_⟩
  · exact ⟨_, getCarrier_setCarrier s.carriers carrier_id carrier _ hc rfl,
      rfl, rfl⟩
  · exact hnodup.not_mem_erase
  · intro p hp
    simpa using (List.mem_filter.mp hp).2

/-- C2 witness: the postconditions at a one-carrier model with one active
load. -/
theorem acceptBid_spec_witness :
    ∃ s', FreightTech.acceptBid smallModel freshLoad "CA" 900 1.1 = .ok s' ∧
      s'.broker.consecutive_failures = 0 ∧
      s'.broker.total_revenue = 0 + freshLoad.market_rate * 1.1 := by
  obtain ⟨s', h1, _, _, h4, _, h6, _⟩ :=
    acceptBid_spec smallModel freshLoad "CA" 900 1.1 availCarrier
      (by simp [smallModel, getCarrier, availCarrier])
      rfl
      (by simp [smallModel, freshLoad])
      (by simp [smallModel])
      (by norm_num) (by norm_num)
  exact ⟨s', h1, h4, by simpa [smallModel] using h6⟩

/-- C10: when no carrier with the given id exists, `accept_bid` does not
fail: the unknown id is silently tolerated.  The broker still marks the
load covered, adds the markup to `total_revenue` and the price to
`total_cost`, moves the load from `active_loads` to `completed_loads` and
resets `consecutive_failures`, while the carrier population is untouched. -/
theorem acceptBid_unknown_carrier (s : ModelState) (load : Load)
    (carrier_id : String) (agreed_price markup_draw : ℚ)
    (hc : getCarrier s.carriers carrier_id = none)
    (hmem : load.id ∈ s.broker.active_loads)
    (hnodup : s.broker.active_loads.Nodup) :
    ∃ s', FreightTech.acceptBid s load carrier_id agreed_price markup_draw =
        .ok s' ∧
      s'.carriers = s.carriers ∧
      (load.acceptBid carrier_id agreed_price).is_covered = true ∧
      s'.broker.total_revenue =
        s.broker.total_revenue + load.market_rate * markup_draw ∧
      s'.broker.total_cost = s.broker.total_cost + agreed_price ∧
      s'.broker.active_loads = s.broker.active_loads.erase load.id ∧
      load.id ∉ s'.broker.active_loads ∧
      s'.broker.completed_loads = s.broker.completed_loads ++ [load.id] ∧
      s'.broker.consecutive_failures = 0 := by
  unfold FreightTech.acceptBid
  rw [hc]
  simp only [if_pos hmem]
  exact ⟨_, rfl, rfl, rfl, rfl, rfl, rfl, hnodup.not_mem_erase, rfl, rfl⟩

/-- C10 witness: `accept_bid` with an id that matches no carrier in a
carrier-less model still succeeds and leaves the (empty) carrier list
unchanged. -/
theorem acceptBid_unknown_carrier_witness :
    ∃ s', FreightTech.acceptBid emptyCarrierModel freshLoad "ZZ" 900 1.1 =
        .ok s' ∧
      s'.carriers = emptyCarrierModel.carriers ∧
      s'.broker.consecutive_failures = 0 := by
  obtain ⟨s', h1, h2, _, _, _, _, _, _, h9⟩ :=
    acceptBid_unknown_carrier emptyCarrierModel freshLoad "ZZ" 900 1.1
      (by simp [emptyCarrierModel, getCarrier])
      (by simp [emptyCarrierModel, freshLoad])
      (by simp [emptyCarrierModel])
  exact ⟨s', h1, h2, h9⟩

/-! ### C7: consecutive `handle_expired_load` calls -/

/-- Helper: a prefix of a run of `handle_expired_load` calls succeeds and
yields the closed-form failure count and penalty total, provided every
expired load is active, the ids are distinct, and every load has the same
penalty base `B = market_rate * penalty_rate`. -/
theorem runExpired_take_spec (loads : List Load) (s : ModelState) (B : ℚ)
    (hB : ∀ l ∈ loads, l.market_rate * l.penalty_rate = B)
    (hmem : ∀ l ∈ loads, l.id ∈ s.broker.active_loads)
    (hnodup : (loads.map Load.id).Nodup) :
    ∀ k, k ≤ loads.length → ∃ sk,
      FreightTech.runExpired s (loads.take k) = .ok sk ∧
      sk.broker.consecutive_failures = s.broker.consecutive_failures + k ∧
      sk.broker.total_penalties = s.broker.total_penalties +
        B * (Finset.range k).sum
          (fun j => 1 + ((s.broker.consecutive_failures : ℚ) + j) * 0.1) := by
  induction loads generalizing s with
  | nil =>
    intro k hk
    have hk0 : k = 0 := Nat.le_zero.mp hk
    subst hk0
    exact ⟨s, rfl, by simp, by simp⟩
  | cons l ls ih =>
    intro k hk
    cases k with
    | zero => exact ⟨s, rfl, by simp, by simp⟩
    | succ k' =>
      have hmem_l : l.id ∈ s.broker.active_loads := hmem l (.head _)
      have hstep : FreightTech.handleExpiredLoad s l = .ok
          { s with broker := { s.broker with
              total_penalties := s.broker.total_penalties +
                l.getPenaltyCost s.broker.consecutive_failures
              consecutive_failures := s.broker.consecutive_failures + 1
              active_loads := s.broker.active_loads.erase l.id
              expired_loads := s.broker.expired_loads ++ [l.id]
              pending_negotiations :=
                s.broker.pending_negotiations.filter
                  (fun p => p.1 ≠ l.id) } } := by
        unfold FreightTech.handleExpiredLoad
        rw [if_pos hmem_l]
      have hid_ne : ∀ l' ∈ ls, l'.id ≠ l.id := by
        intro l' hl' he
        have : l.id ∈ ls.map Load.id := he ▸ List.mem_map_of_mem Load.id hl'
        exact (List.nodup_cons.mp hnodup).1 this
      obtain ⟨sk, hrun, hcf, hp⟩ :=
        ih { s with broker := { s.broker with
              total_penalties := s.broker.total_penalties +
                l.getPenaltyCost s.broker.consecutive_failures
              consecutive_failures := s.broker.consecutive_failures + 1
              active_loads := s.broker.active_loads.erase l.id
              expired_loads := s.broker.expired_loads ++ [l.id]
              pending_negotiations :=
                s.broker.pending_negotiations.filter
                  (fun p => p.1 ≠ l.id) } }
          (fun l' hl' => hB l' (List.mem_cons_of_mem l hl'))
          (fun l' hl' =>
            (List.mem_erase_of_ne (hid_ne l' hl')).mpr
              (hmem l' (List.mem_cons_of_mem l hl')))
          ((List.nodup_cons.mp hnodup).2)
          k' (Nat.succ_le_succ_iff.mp hk)
      refine ⟨sk, ?_, ?_, ?_⟩
      · rw [List.take_succ_cons]
        unfold FreightTech.runExpired at hrun ⊢
        rw [List.foldlM_cons, hstep]
        exact hrun
      · rw [hcf]
        dsimp only
        omega
      · dsimp only at hp
        rw [hp]
        have hpen : l.getPenaltyCost s.broker.consecutive_failures =
            B * (1 + (s.broker.consecutive_failures : ℚ) * 0.1) := by
          unfold Load.getPenaltyCost
          rw [hB l (List.mem_cons_self l ls)]
        rw [hpen]
        rw [Finset.sum_range_succ']
        have hcong : ∀ j ∈ Finset.range k',
            (1 : ℚ) + (((s.broker.consecutive_failures + 1 : ℕ) : ℚ) +
                (j : ℚ)) * 0.1 =
              1 + ((s.broker.consecutive_failures : ℚ) +
                ((j + 1 : ℕ) : ℚ)) * 0.1 := by
          intro j _
          push_cast
          ring
        rw [Finset.sum_congr rfl hcong]
        push_cast
        ring

/-- C7: starting from `consecutive_failures = 0`, after `N` consecutive
`handle_expired_load` calls (distinct active loads, all with the same
positive penalty base `B = market_rate * penalty_rate`):
`consecutive_failures = N`; the `k`-th call (1-indexed) adds exactly
`B * (1 + 0.1 * (k-1))` to `total_penalties`, so `total_penalties` grows
strictly at each call and each increment is `≥` the prior one
(uncapped escalation). -/
theorem handleExpired_escalation (s : ModelState) (loads : List Load) (B : ℚ)
    (hB : ∀ l ∈ loads, l.market_rate * l.penalty_rate = B) (hBpos : 0 < B)
    (hmem : ∀ l ∈ loads, l.id ∈ s.broker.active_loads)
    (hnodup : (loads.map Load.id).Nodup)
    (hcf : s.broker.consecutive_failures = 0) (hN : 1 ≤ loads.length) :
    (∃ sN, FreightTech.runExpired s loads = .ok sN ∧
      sN.broker.consecutive_failures = loads.length) ∧
    (∀ k, k < loads.length →
      FreightTech.penaltiesAfter s loads (k + 1) =
        FreightTech.penaltiesAfter s loads k + B * (1 + (k : ℚ) * 0.1)) ∧
    (∀ k, k < loads.length →
      FreightTech.penaltiesAfter s loads k <
        FreightTech.penaltiesAfter s loads (k + 1)) ∧
    (∀ k, k + 1 < loads.length →
      FreightTech.penaltiesAfter s loads (k + 1) -
          FreightTech.penaltiesAfter s loads k ≤
        FreightTech.penaltiesAfter s loads (k + 2) -
          FreightTech.penaltiesAfter s loads (k + 1)) := by
  have hspec := runExpired_take_spec loads s B hB hmem hnodup
  have hPA : ∀ k, k ≤ loads.length →
      FreightTech.penaltiesAfter s loads k = s.broker.total_penalties +
        B * (Finset.range k).sum (fun j => 1 + (j : ℚ) * 0.1) := by
    intro k hk
    obtain ⟨sk, hrun, _, hp⟩ := hspec k hk
    have hsum : ∀ j ∈ Finset.range k,
        1 + ((s.broker.consecutive_failures : ℚ) + j) * 0.1 =
          1 + (j : ℚ) * 0.1 := by
      intro j _
      rw [hcf]
      push_cast
      ring
    unfold FreightTech.penaltiesAfter
    rw [hrun]
    dsimp only
    rw [hp, Finset.sum_congr rfl hsum]
  have hinc : ∀ k, k < loads.length →
      FreightTech.penaltiesAfter s loads (k + 1) =
        FreightTech.penaltiesAfter s loads k + B * (1 + (k : ℚ) * 0.1) := by
    intro k hk
    rw [hPA (k + 1) hk, hPA k hk.le, Finset.sum_range_succ]
    ring
  refine ⟨?_, hinc, ?_, ?_⟩
  · obtain ⟨sN, hrun, hcfN, _⟩ := hspec loads.length (le_refl _)
    rw [List.take_length] at hrun
    exact ⟨sN, hrun, by rw [hcfN, hcf]; omega⟩
  · intro k hk
    have h1 : (0 : ℚ) < 1 + (k : ℚ) * 0.1 := by positivity
    have := mul_pos hBpos h1
    rw [hinc k hk]
    linarith
  · intro k hk
    have e1 := hinc k (by omega)
    have e2 := hinc (k + 1) hk
    rw [e1, e2]
    have hle : (1 : ℚ) + (k : ℚ) * 0.1 ≤ 1 + ((k : ℕ) + 1 : ℕ) * 0.1 := by
      push_cast
      linarith
    have := mul_le_mul_of_nonneg_left hle hBpos.le
    push_cast at this ⊢
    linarith

/-- C7 witness: two consecutive expiries (`expLoadA`, `expLoadB`, both with
penalty base `20`) from `consecutive_failures = 0`: the run succeeds with
`consecutive_failures = 2` and the penalty total grows at the first call. -/
theorem handleExpired_escalation_witness :
    (∃ sN, FreightTech.runExpired expModel [expLoadA, expLoadB] = .ok sN ∧
      sN.broker.consecutive_failures = 2) ∧
    FreightTech.penaltiesAfter expModel [expLoadA, expLoadB] 0 <
      FreightTech.penaltiesAfter expModel [expLoadA, expLoadB] 1 := by
  obtain ⟨⟨sN, h1, h2⟩, _, h3, _⟩ :=
    handleExpired_escalation expModel [expLoadA, expLoadB] 20
      (by
        intro l hl
        simp only [List.mem_cons, List.not_mem_nil, or_false] at hl
        rcases hl with rfl | rfl
        · norm_num [expLoadA]
        · norm_num [expLoadB])
      (by norm_num)
      (by
        intro l hl
        simp only [List.mem_cons, List.not_mem_nil, or_false] at hl
        rcases hl with rfl | rfl
        · simp [expModel, expLoadA]
        · simp [expModel, expLoadB])
      (by simp [expLoadA, expLoadB])
      rfl
      (by simp)
  exact ⟨⟨sN, h1, by simpa using h2⟩, h3 0 (by simp)⟩

/-! ### C1: `FreightTech.process_bids` -/

/-- Helper: `sorted(bids, key=price)[0]` (Python's sort is stable) returns
the bid with the lowest price, and among equal lowest prices the
first-encountered one: it is the head of the discovery-ordered list of
bids at the minimal price. -/
theorem selectedBid_spec (bids : List (String × ℚ)) (hne : bids ≠ []) :
    ∃ bc bb, FreightTech.selectedBid bids = some (bc, bb) ∧
      (∀ x ∈ bids, bb ≤ x.2) ∧
      (bids.filter (fun x => decide (x.2 = bb))).head? = some (bc, bb) := by
  have htrans : ∀ a b c : String × ℚ,
      (fun a b : String × ℚ => decide (a.2 ≤ b.2)) a b →
      (fun a b : String × ℚ => decide (a.2 ≤ b.2)) b c →
      (fun a b : String × ℚ => decide (a.2 ≤ b.2)) a c := by
    intro a b c hab hbc
    simp only [decide_eq_true_eq] at *
    exact le_trans hab hbc
  have htotal : ∀ a b : String × ℚ,
      ((fun a b : String × ℚ => decide (a.2 ≤ b.2)) a b ||
       (fun a b : String × ℚ => decide (a.2 ≤ b.2)) b a) := by
    intro a b
    simp only [Bool.or_eq_true, decide_eq_true_eq]
    exact le_total a.2 b.2
  have hperm := List.mergeSort_perm bids
    (fun a b : String × ℚ => decide (a.2 ≤ b.2))
  have hsorted := List.sorted_mergeSort htrans htotal bids
  have hne' : bids.mergeSort (fun a b : String × ℚ => decide (a.2 ≤ b.2)) ≠
      [] := by
    intro h
    apply hne
    have hlen := hperm.length_eq
    rw [h] at hlen
    exact List.length_eq_zero.mp hlen.symm
  obtain ⟨hd, tl, hms⟩ := List.exists_cons_of_ne_nil hne'
  refine ⟨hd.1, hd.2, ?_, ?_, ?_⟩
  · unfold FreightTech.selectedBid
    rw [hms]
    rfl
  · intro x hx
    have hx' : x ∈ bids.mergeSort
        (fun a b : String × ℚ => decide (a.2 ≤ b.2)) :=
      List.mem_mergeSort.mpr hx
    rw [hms] at hx'
    rcases List.mem_cons.mp hx' with rfl | hx''
    · exact le_refl _
    · have hp := hsorted
      rw [hms] at hp
      have := (List.pairwise_cons.mp hp).1 x hx''
      simpa using this
  · have hdmem : hd ∈ bids := by
      have : hd ∈ bids.mergeSort
          (fun a b : String × ℚ => decide (a.2 ≤ b.2)) := by
        rw [hms]; exact List.mem_cons_self _ _
      exact List.mem_mergeSort.mp this
    have hdp : (fun x : String × ℚ => decide (x.2 = hd.2)) hd = true := by
      simp
    have hF : bids.filter (fun x => decide (x.2 = hd.2)) ≠ [] := by
      intro h
      have hmf : hd ∈ bids.filter (fun x => decide (x.2 = hd.2)) :=
        List.mem_filter.mpr ⟨hdmem, hdp⟩
      rw [h] at hmf
      exact List.not_mem_nil _ hmf
    obtain ⟨w, F', hFw⟩ := List.exists_cons_of_ne_nil hF
    by_cases hw : w = hd
    · rw [hFw, hw]
      rfl
    · exfalso
      have hFsub : List.Sublist
          (bids.filter (fun x => decide (x.2 = hd.2))) bids :=
        List.filter_sublist bids
      have hFpair : (bids.filter (fun x => decide (x.2 = hd.2))).Pairwise
          (fun a b : String × ℚ => decide (a.2 ≤ b.2) = true) := by
        apply List.pairwise_of_forall_mem_list
        intro a ha b hb
        have ha' := (List.mem_filter.mp ha).2
        have hb' := (List.mem_filter.mp hb).2
        simp only [decide_eq_true_eq] at ha' hb' ⊢
        rw [ha', hb']
      have hFms := List.sublist_mergeSort htrans htotal hFpair hFsub
      rw [hms, hFw] at hFms
      have hFtl : List.Sublist (w :: F') tl := by
        cases hFms with
        | cons _ h => exact h
        | cons₂ _ h => exact absurd rfl hw
      have hcount1 : (w :: F').countP (fun x => decide (x.2 = hd.2)) =
          bids.countP (fun x => decide (x.2 = hd.2)) := by
        rw [← hFw]
        rw [List.countP_eq_length.mpr
          (fun a ha => (List.mem_filter.mp ha).2)]
        rw [List.countP_eq_length_filter]
      have hcount2 : (bids.mergeSort
            (fun a b : String × ℚ => decide (a.2 ≤ b.2))).countP
          (fun x => decide (x.2 = hd.2)) =
          bids.countP (fun x => decide (x.2 = hd.2)) :=
        hperm.countP_eq _
      have hcount3 : (hd :: tl).countP (fun x => decide (x.2 = hd.2)) =
          tl.countP (fun x => decide (x.2 = hd.2)) + 1 := by
        rw [List.countP_cons]
        simp
      have hcount4 := hFtl.countP_le (fun x => decide (x.2 = hd.2))
      rw [hms] at hcount2
      omega

/-- Helper: `should_accept_bid` is true exactly when one of the three
acceptance conditions holds. -/
theorem shouldAcceptBid_iff (load : Load) (bid : ℚ) (cid : String) (cf : ℕ) :
    FreightTech.shouldAcceptBid load bid cid cf = true ↔
      (bid ≤ FreightTech.getUrgencyThreshold load ∨
       bid < load.getPenaltyCost cf ∨
       (load.getUrgencyFactor > 0.9 ∧ load.negotiation_rounds ≥ 2)) := by
  simp only [FreightTech.shouldAcceptBid]
  split_ifs with h1 h2 h3
  · simp [h1]
  · simp [h1, h2]
  · simp [h1, h2, h3]
  · simp [h1, h2, h3]

/-- C1: for a non-empty bid list, `process_bids` selects the bid with the
lowest price (ties broken by discovery order: the selected bid is the first
element of the bid list among those at the minimal price), and it accepts
that bid — immediately, at the bid's price — exactly when the bid is `≤`
the urgency threshold, or `<` the escalated penalty cost, or the
desperation override (`urgency_factor > 0.9` and `negotiation_rounds ≥ 2`)
applies. -/
theorem processBids_lowest_accept_iff (carriers : List Carrier)
    (consecutive_failures max_negotiation_rounds : ℕ) (load : Load)
    (bids : List (String × ℚ)) (hne : bids ≠ []) :
    ∃ bc bb, FreightTech.selectedBid bids = some (bc, bb) ∧
      (∀ x ∈ bids, bb ≤ x.2) ∧
      (bids.filter (fun x => decide (x.2 = bb))).head? = some (bc, bb) ∧
      (FreightTech.processBidsDecision carriers consecutive_failures
          max_negotiation_rounds load bids =
            FreightTech.BidDecision.acceptBest bc bb ↔
        (bb ≤ FreightTech.getUrgencyThreshold load ∨
         bb < load.getPenaltyCost consecutive_failures ∨
         (load.getUrgencyFactor > 0.9 ∧ load.negotiation_rounds ≥ 2))) := by
  obtain ⟨bc, bb, hsel, hmin, hfirst⟩ := selectedBid_spec bids hne
  refine ⟨bc, bb, hsel, hmin, hfirst, ?_⟩
  rw [← shouldAcceptBid_iff load bb bc consecutive_failures]
  unfold FreightTech.processBidsDecision
  rw [hsel]
  dsimp only
  constructor
  · intro hdec
    by_contra hacc
    rw [Bool.not_eq_true] at hacc
    rw [if_neg (by simp [hacc])] at hdec
    rcases hgen : FreightTech.generateCounterOffer load bb
        max_negotiation_rounds with _ | co
    · rw [hgen] at hdec
      exact absurd hdec (by simp)
    · rw [hgen] at hdec
      rcases hcar : getCarrier carriers bc with _ | carrier
      · rw [hcar] at hdec
        exact absurd hdec (by simp)
      · rw [hcar] at hdec
        dsimp only at hdec
        by_cases hca :
            FreightTech.carrierAcceptsCounter carrier load co = true
        · rw [if_pos hca] at hdec
          exact absurd hdec (by simp)
        · rw [if_neg hca] at hdec
          exact absurd hdec (by simp)
  · intro hacc
    rw [if_pos hacc]

/-- C1 witness: the spec's scenario — two carriers bid `{A: 1000, B: 950}`
on a fresh load with `market_rate = 1000` (threshold `950`) — the broker
selects carrier B's `950` and accepts it immediately. -/
theorem processBids_scenario_witness :
    FreightTech.processBidsDecision [] 0 3 scenarioLoad
      [("A", 1000), ("B", 950)] =
    FreightTech.BidDecision.acceptBest "B" 950 := by
  obtain ⟨bc, bb, hsel, hmin, hfirst, hiff⟩ :=
    processBids_lowest_accept_iff [] 0 3 scenarioLoad [("A", 1000), ("B", 950)]
      (by simp)
  have hble : bb ≤ 950 := hmin ("B", 950) (by simp)
  have hmemb : (bc, bb) ∈ [("A", (1000 : ℚ)), ("B", 950)] := by
    obtain ⟨ys, hys⟩ := List.head?_eq_some_iff.mp hfirst
    have : (bc, bb) ∈ [("A", (1000 : ℚ)), ("B", 950)].filter
        (fun x => decide (x.2 = bb)) := by
      rw [hys]
      exact List.mem_cons_self _ _
    exact List.mem_of_mem_filter this
  have hbb : bc = "B" ∧ bb = 950 := by
    rcases List.mem_cons.mp hmemb with h | h
    · exfalso
      have : bb = 1000 := congrArg Prod.snd h
      rw [this] at hble
      norm_num at hble
    · rcases List.mem_cons.mp h with h' | h'
      · exact ⟨congrArg Prod.fst h', congrArg Prod.snd h'⟩
      · exact absurd h' (List.not_mem_nil _)
  obtain ⟨rfl, rfl⟩ := hbb
  apply hiff.mpr
  left
  norm_num [FreightTech.getUrgencyThreshold, Load.getUrgencyFactor,
    scenarioLoad]
